import Mathlib

set_option maxHeartbeats 1000000

/-!  Verification of the hexagonal-frame asset pipeline.

Every quantity the pipeline derives from pixel coordinates has the form
a + b * sqrt 3 with rational a and b, so the whole pipeline is embedded
with exact, computable arithmetic over that quadratic field.  -/

/-- A number of the form a + b * sqrt 3 with rational coefficients. -/
structure Q3 where
  a : ℚ
  b : ℚ
deriving DecidableEq

namespace Q3

/-- Embed a rational number. -/
def ofQ (q : ℚ) : Q3 := ⟨q, 0⟩

/-- The element sqrt 3. -/
def sqrt3 : Q3 := ⟨0, 1⟩

instance : Zero Q3 := ⟨⟨0, 0⟩⟩
instance : One Q3 := ⟨⟨1, 0⟩⟩
instance : Add Q3 := ⟨fun x y => ⟨x.a + y.a, x.b + y.b⟩⟩
instance : Neg Q3 := ⟨fun x => ⟨-x.a, -x.b⟩⟩
instance : Sub Q3 := ⟨fun x y => ⟨x.a - y.a, x.b - y.b⟩⟩
instance : Mul Q3 := ⟨fun x y => ⟨x.a * y.a + 3 * x.b * y.b, x.a * y.b + x.b * y.a⟩⟩
instance : Inv Q3 := ⟨fun x => ⟨x.a / (x.a ^ 2 - 3 * x.b ^ 2), -x.b / (x.a ^ 2 - 3 * x.b ^ 2)⟩⟩
instance : Div Q3 := ⟨fun x y => x * y⁻¹⟩

@[simp] lemma zero_a : (0 : Q3).a = 0 := rfl
@[simp] lemma zero_b : (0 : Q3).b = 0 := rfl
@[simp] lemma one_a : (1 : Q3).a = 1 := rfl
@[simp] lemma one_b : (1 : Q3).b = 0 := rfl
@[simp] lemma ofQ_a (q : ℚ) : (ofQ q).a = q := rfl
@[simp] lemma ofQ_b (q : ℚ) : (ofQ q).b = 0 := rfl
@[simp] lemma sqrt3_a : sqrt3.a = 0 := rfl
@[simp] lemma sqrt3_b : sqrt3.b = 1 := rfl
@[simp] lemma add_a (x y : Q3) : (x + y).a = x.a + y.a := rfl
@[simp] lemma add_b (x y : Q3) : (x + y).b = x.b + y.b := rfl
@[simp] lemma neg_a (x : Q3) : (-x).a = -x.a := rfl
@[simp] lemma neg_b (x : Q3) : (-x).b = -x.b := rfl
@[simp] lemma sub_a (x y : Q3) : (x - y).a = x.a - y.a := rfl
@[simp] lemma sub_b (x y : Q3) : (x - y).b = x.b - y.b := rfl
@[simp] lemma mul_a (x y : Q3) : (x * y).a = x.a * y.a + 3 * x.b * y.b := rfl
@[simp] lemma mul_b (x y : Q3) : (x * y).b = x.a * y.b + x.b * y.a := rfl
@[simp] lemma inv_a (x : Q3) : x⁻¹.a = x.a / (x.a ^ 2 - 3 * x.b ^ 2) := rfl
@[simp] lemma inv_b (x : Q3) : x⁻¹.b = -x.b / (x.a ^ 2 - 3 * x.b ^ 2) := rfl

lemma div_def (x y : Q3) : x / y = x * y⁻¹ := rfl

lemma ext {x y : Q3} (h1 : x.a = y.a) (h2 : x.b = y.b) : x = y := by
  cases x; cases y; cases h1; cases h2; rfl

/-- The semantics of a `Q3` value as a real number. -/
noncomputable def toReal (x : Q3) : ℝ := (x.a : ℝ) + (x.b : ℝ) * Real.sqrt 3

lemma sqrt3_mul_self : Real.sqrt 3 * Real.sqrt 3 = 3 := Real.mul_self_sqrt (by norm_num)

@[simp] lemma toReal_zero : (0 : Q3).toReal = 0 := by simp [toReal]

@[simp] lemma toReal_one : (1 : Q3).toReal = 1 := by simp [toReal]

@[simp] lemma toReal_ofQ (q : ℚ) : (ofQ q).toReal = (q : ℝ) := by simp [toReal]

@[simp] lemma toReal_sqrt3 : sqrt3.toReal = Real.sqrt 3 := by simp [toReal]

@[simp] lemma toReal_add (x y : Q3) : (x + y).toReal = x.toReal + y.toReal := by
  simp only [toReal, add_a, add_b]
  push_cast
  ring

@[simp] lemma toReal_neg (x : Q3) : (-x).toReal = -x.toReal := by
  simp only [toReal, neg_a, neg_b]
  push_cast
  ring

@[simp] lemma toReal_sub (x y : Q3) : (x - y).toReal = x.toReal - y.toReal := by
  simp only [toReal, sub_a, sub_b]
  push_cast
  ring

@[simp] lemma toReal_mul (x y : Q3) : (x * y).toReal = x.toReal * y.toReal := by
  simp only [toReal, mul_a, mul_b]
  push_cast
  linear_combination (-(x.b : ℝ) * (y.b : ℝ)) * sqrt3_mul_self

/-- Decide 0 ≤ a + b * sqrt 3 by rational sign analysis. -/
def bnonneg (x : Q3) : Bool :=
  if 0 ≤ x.a then
    if 0 ≤ x.b then true else decide (3 * x.b ^ 2 ≤ x.a ^ 2)
  else
    if 0 ≤ x.b then decide (x.a ^ 2 ≤ 3 * x.b ^ 2) else false

lemma bnonneg_iff (x : Q3) : bnonneg x = true ↔ 0 ≤ x.toReal := by
  obtain ⟨a, b⟩ := x
  have s0 : (0 : ℝ) ≤ Real.sqrt 3 := Real.sqrt_nonneg 3
  simp only [bnonneg, toReal]
  rcases le_or_lt 0 a with ha | ha <;> rcases le_or_lt 0 b with hb | hb
  · have ha' : (0 : ℝ) ≤ (a : ℝ) := by exact_mod_cast ha
    have hb' : (0 : ℝ) ≤ (b : ℝ) * Real.sqrt 3 :=
      mul_nonneg (by exact_mod_cast hb) s0
    simp only [if_pos ha, if_pos hb, true_iff]
    linarith
  · rw [if_pos ha, if_neg (not_le.mpr hb), decide_eq_true_eq]
    have ha' : (0 : ℝ) ≤ (a : ℝ) := by exact_mod_cast ha
    have hb' : (b : ℝ) < 0 := by exact_mod_cast hb
    constructor
    · intro h
      have hR : 3 * (b : ℝ) ^ 2 ≤ (a : ℝ) ^ 2 := by exact_mod_cast h
      have h1 : Real.sqrt (3 * (b : ℝ) ^ 2) ≤ Real.sqrt ((a : ℝ) ^ 2) :=
        Real.sqrt_le_sqrt hR
      rw [Real.sqrt_mul (by norm_num), Real.sqrt_sq_eq_abs, Real.sqrt_sq ha',
        abs_of_neg hb'] at h1
      nlinarith [sqrt3_mul_self]
    · intro h
      have h1 : -(b : ℝ) * Real.sqrt 3 ≤ (a : ℝ) := by nlinarith
      have h2 : (-(b : ℝ) * Real.sqrt 3) * (-(b : ℝ) * Real.sqrt 3) ≤ (a : ℝ) * (a : ℝ) :=
        mul_self_le_mul_self (mul_nonneg (by linarith) s0) h1
      have key : 3 * (b : ℝ) ^ 2 ≤ (a : ℝ) ^ 2 := by nlinarith [sqrt3_mul_self]
      exact_mod_cast key
  · rw [if_neg (not_le.mpr ha), if_pos hb, decide_eq_true_eq]
    have ha' : (a : ℝ) < 0 := by exact_mod_cast ha
    have hb' : (0 : ℝ) ≤ (b : ℝ) := by exact_mod_cast hb
    constructor
    · intro h
      have hR : (a : ℝ) ^ 2 ≤ 3 * (b : ℝ) ^ 2 := by exact_mod_cast h
      have h1 : Real.sqrt ((a : ℝ) ^ 2) ≤ Real.sqrt (3 * (b : ℝ) ^ 2) :=
        Real.sqrt_le_sqrt hR
      rw [Real.sqrt_mul (by norm_num), Real.sqrt_sq_eq_abs, Real.sqrt_sq_eq_abs,
        abs_of_neg ha', abs_of_nonneg hb'] at h1
      nlinarith
    · intro h
      have h1 : -(a : ℝ) ≤ (b : ℝ) * Real.sqrt 3 := by linarith
      have h2 : (-(a : ℝ)) * (-(a : ℝ)) ≤ ((b : ℝ) * Real.sqrt 3) * ((b : ℝ) * Real.sqrt 3) :=
        mul_self_le_mul_self (by linarith) h1
      have key : (a : ℝ) ^ 2 ≤ 3 * (b : ℝ) ^ 2 := by nlinarith [sqrt3_mul_self]
      exact_mod_cast key
  · have ha' : (a : ℝ) < 0 := by exact_mod_cast ha
    have hb' : (b : ℝ) < 0 := by exact_mod_cast hb
    have hbs : (b : ℝ) * Real.sqrt 3 ≤ 0 := mul_nonpos_of_nonpos_of_nonneg hb'.le s0
    rw [if_neg (not_le.mpr ha), if_neg (not_le.mpr hb)]
    constructor
    · intro h
      exact absurd h Bool.false_ne_true
    · intro h
      linarith

/-- Boolean comparison agreeing with the real order. -/
def ble (x y : Q3) : Bool := bnonneg (y - x)

lemma ble_iff (x y : Q3) : ble x y = true ↔ x.toReal ≤ y.toReal := by
  unfold ble
  rw [bnonneg_iff, toReal_sub, sub_nonneg]

lemma irrational_sqrt_three : Irrational (Real.sqrt 3) := by
  have h := Nat.prime_three.irrational_sqrt
  simpa using h

lemma toReal_eq_zero_iff (x : Q3) : x.toReal = 0 ↔ x = 0 := by
  constructor
  · intro h
    obtain ⟨a, b⟩ := x
    by_cases hb : b = 0
    · subst hb
      simp only [toReal] at h
      push_cast at h
      simp only [zero_mul, add_zero] at h
      have ha : a = 0 := by exact_mod_cast h
      exact ext (by simpa using ha) (by simp)
    · exfalso
      have hbR : (b : ℝ) ≠ 0 := by exact_mod_cast hb
      have hs : Real.sqrt 3 = ((-a / b : ℚ) : ℝ) := by
        simp only [toReal] at h
        push_cast
        field_simp
        linarith
      exact irrational_sqrt_three ⟨-a / b, hs.symm⟩
  · rintro rfl
    simp

lemma toReal_inj {x y : Q3} : x.toReal = y.toReal ↔ x = y := by
  constructor
  · intro h
    have h0 : (x - y).toReal = 0 := by rw [toReal_sub, h, sub_self]
    have hz : x - y = 0 := (toReal_eq_zero_iff _).mp h0
    have ha := congrArg Q3.a hz
    have hb := congrArg Q3.b hz
    simp only [sub_a, sub_b, zero_a, zero_b] at ha hb
    exact ext (by linarith) (by linarith)
  · rintro rfl
    rfl

lemma toReal_ne_zero {x : Q3} (hx : x ≠ 0) : x.toReal ≠ 0 :=
  fun h => hx ((toReal_eq_zero_iff x).mp h)

lemma discr_ne_zero {x : Q3} (hx : x ≠ 0) : x.a ^ 2 - 3 * x.b ^ 2 ≠ 0 := by
  intro h
  by_cases hb : x.b = 0
  · have h2 : x.a ^ 2 = 0 := by rw [hb] at h; linarith [h]
    have ha : x.a = 0 := pow_eq_zero_iff (two_ne_zero) |>.mp h2
    exact hx (ext (by simpa using ha) (by simpa using hb))
  · have hbR : (x.b : ℝ) ≠ 0 := by exact_mod_cast hb
    have key : ((x.a / x.b : ℚ) : ℝ) ^ 2 = 3 := by
      have hQ : x.a ^ 2 = 3 * x.b ^ 2 := by linarith
      have hR : (x.a : ℝ) ^ 2 = 3 * (x.b : ℝ) ^ 2 := by exact_mod_cast hQ
      push_cast
      field_simp
      linarith
    have hs : Real.sqrt 3 = |((x.a / x.b : ℚ) : ℝ)| := by
      rw [← key, Real.sqrt_sq_eq_abs]
    exact irrational_sqrt_three ⟨|x.a / x.b|, by rw [Rat.cast_abs]; exact hs.symm⟩

lemma toReal_inv (x : Q3) : x⁻¹.toReal = x.toReal⁻¹ := by
  by_cases hx : x = 0
  · subst hx
    show toReal ⟨(0 : ℚ) / _, -(0 : ℚ) / _⟩ = _
    simp [toReal]
  · have hD : x.a ^ 2 - 3 * x.b ^ 2 ≠ 0 := discr_ne_zero hx
    have hDR : ((x.a : ℝ) ^ 2 - 3 * (x.b : ℝ) ^ 2) ≠ 0 := by exact_mod_cast hD
    have hmul : x⁻¹.toReal * x.toReal = 1 := by
      simp only [toReal, inv_a, inv_b]
      push_cast
      field_simp
      linear_combination (-(x.b : ℝ) * (x.b : ℝ)) * sqrt3_mul_self
    exact eq_inv_of_mul_eq_one_left hmul

@[simp] lemma toReal_div (x y : Q3) : (x / y).toReal = x.toReal / y.toReal := by
  rw [div_def, toReal_mul, toReal_inv, div_eq_mul_inv]

/-- np.maximum on exact values. -/
def qmax (x y : Q3) : Q3 := if ble x y then y else x

/-- np.minimum on exact values. -/
def qmin (x y : Q3) : Q3 := if ble x y then x else y

/-- np.clip on exact values. -/
def clip (x lo hi : Q3) : Q3 := qmin (qmax x lo) hi

@[simp] lemma toReal_qmax (x y : Q3) : (qmax x y).toReal = max x.toReal y.toReal := by
  unfold qmax
  by_cases h : ble x y = true
  · rw [if_pos h, max_eq_right ((ble_iff x y).mp h)]
  · have h2 : ¬ x.toReal ≤ y.toReal := fun hle => h ((ble_iff x y).mpr hle)
    rw [if_neg h, max_eq_left (le_of_not_le h2)]

@[simp] lemma toReal_qmin (x y : Q3) : (qmin x y).toReal = min x.toReal y.toReal := by
  unfold qmin
  by_cases h : ble x y = true
  · rw [if_pos h, min_eq_left ((ble_iff x y).mp h)]
  · have h2 : ¬ x.toReal ≤ y.toReal := fun hle => h ((ble_iff x y).mpr hle)
    rw [if_neg h, min_eq_right (le_of_not_le h2)]

@[simp] lemma toReal_clip (x lo hi : Q3) :
    (clip x lo hi).toReal = min (max x.toReal lo.toReal) hi.toReal := by
  unfold clip
  rw [toReal_qmin, toReal_qmax]

lemma q3_mul_zero (x : Q3) : x * 0 = 0 := by
  apply ext <;> simp

lemma q3_zero_mul (x : Q3) : 0 * x = 0 := by
  apply ext <;> simp

lemma ble_zero_one : ble (0 : Q3) 1 = true := by
  rw [ble_iff, toReal_zero, toReal_one]
  norm_num

/-- clip x 0 1 collapses to 0 on nonpositive input. -/
lemma clip01_eq_zero {x : Q3} (h : x.toReal ≤ 0) : clip x 0 1 = 0 := by
  have h1 : ble x 0 = true := (ble_iff x 0).mpr (by simpa using h)
  unfold clip qmax qmin
  rw [if_pos h1, if_pos ble_zero_one]

/-- clip x 0 1 is the identity on [0, 1]. -/
lemma clip01_eq_self {x : Q3} (h0 : 0 ≤ x.toReal) (h1 : x.toReal ≤ 1) :
    clip x 0 1 = x := by
  unfold clip qmax qmin
  by_cases hb : ble x 0 = true
  · have hx0 : x.toReal ≤ 0 := by simpa using (ble_iff x 0).mp hb
    have hx : x = 0 := (toReal_eq_zero_iff x).mp (le_antisymm hx0 h0)
    subst hx
    rw [if_pos hb, if_pos ble_zero_one]
  · rw [if_neg hb]
    have h2 : ble x 1 = true := (ble_iff x 1).mpr (by simpa using h1)
    rw [if_pos h2]

/-- Integer part of b * sqrt 3 for 0 ≤ b. -/
def floorSqrt3Mul (b : ℚ) : ℤ := (Nat.sqrt (Int.toNat ⌊3 * b ^ 2⌋) : ℤ)

/-- Floor of an exact value (the integer n with n ≤ a + b * sqrt 3 < n + 1). -/
def floor (x : Q3) : ℤ :=
  let fb : ℤ := if 0 ≤ x.b then floorSqrt3Mul x.b else -floorSqrt3Mul (-x.b) - 1
  let n0 : ℤ := ⌊x.a⌋ + fb
  if (x - ofQ ((n0 : ℚ) + 1)).bnonneg then n0 + 1 else n0

end Q3

/-!  Image model: RGBA pixel buffers addressed as pixel row col.  -/

/-- One RGBA pixel with 8-bit channels. -/
structure RGBA where
  r : ℕ
  g : ℕ
  b : ℕ
  a : ℕ
deriving DecidableEq

instance : Inhabited RGBA := ⟨⟨0, 0, 0, 0⟩⟩

/-- An in-memory RGBA image. -/
structure Img where
  width : ℕ
  height : ℕ
  pixel : ℕ → ℕ → RGBA

instance : Inhabited Img := ⟨⟨0, 0, fun _ _ => ⟨0, 0, 0, 0⟩⟩⟩

/-- numpy float -> uint8 cast of the nonnegative values produced by the
pipeline (truncation toward zero, i.e. floor, reduced mod 256). -/
def q3ToUint8 (x : Q3) : ℕ := x.floor.toNat % 256

/-!  create_hex_distance_field_pointy (squash_hex_frame_v2.py, lines 6-22) and
create_hex_distance_field (defined identically in squash_hex_frame.py lines
6-16 and smart_hex_crop.py lines 5-38).  Both depend only on the image
dimensions and the pixel position, never on pixel content.  -/

/-- Pointy-top distance field of squash_hex_frame_v2:
d = max(|y| * (sqrt3/2) + |x| * 0.5, |x|) at centered coordinates
x = col - width/2, y = row - height/2. -/
def create_hex_distance_field_pointy (width height row col : ℕ) : Q3 :=
  let x : ℚ := (col : ℚ) - (width : ℚ) / 2
  let y : ℚ := (row : ℚ) - (height : ℚ) / 2
  Q3.qmax (Q3.ofQ |y| * (Q3.sqrt3 / Q3.ofQ 2) + Q3.ofQ |x| * Q3.ofQ (1/2)) (Q3.ofQ |x|)

/-- Distance field of squash_hex_frame.py and smart_hex_crop.py:
d = max(|x| * (sqrt3/2) + |y| * 0.5, |y|) at centered coordinates. -/
def create_hex_distance_field (width height row col : ℕ) : Q3 :=
  let x : ℚ := (col : ℚ) - (width : ℚ) / 2
  let y : ℚ := (row : ℚ) - (height : ℚ) / 2
  Q3.qmax (Q3.ofQ |x| * (Q3.sqrt3 / Q3.ofQ 2) + Q3.ofQ |y| * Q3.ofQ (1/2)) (Q3.ofQ |y|)

/-- dist_field[mask]: the row-major list of distance-field values at pixels
whose alpha exceeds the threshold (mask = alpha > thr). -/
def maskedDistances (img : Img) (thr : ℕ) (field : ℕ → ℕ → Q3) : List Q3 :=
  (List.range img.height).flatMap fun r =>
    (List.range img.width).filterMap fun c =>
      if thr < (img.pixel r c).a then some (field r c) else none

/-- Insertion into a list sorted by Q3.ble. -/
def insertLe (x : Q3) : List Q3 → List Q3
  | [] => [x]
  | y :: ys => if Q3.ble x y then x :: y :: ys else y :: insertLe x ys

/-- Insertion sort by Q3.ble. -/
def sortQ3 (l : List Q3) : List Q3 := l.foldr insertLe []

/-- np.percentile with its default linear interpolation: virtual index
pos = q/100 * (n - 1), result = x[floor pos] + frac * (x[floor pos + 1] - x[floor pos]). -/
def percentile (q : ℚ) (l : List Q3) : Q3 :=
  let s := sortQ3 l
  let n := s.length
  let pos : ℚ := q / 100 * ((n : ℚ) - 1)
  let i : ℕ := (Int.floor pos).toNat
  let lo := s.getD i 0
  let hi := s.getD (i + 1) lo
  lo + Q3.ofQ (pos - (i : ℚ)) * (hi - lo)

/-- Source ring bounds of squash_hex_frame_v2 (percentiles 0.5 and 99.5). -/
def srcBoundsV2 (img : Img) : Q3 × Q3 :=
  let masked := maskedDistances img 20 (create_hex_distance_field_pointy img.width img.height)
  (percentile (1/2) masked, percentile (199/2) masked)

/-- Source ring bounds of squash_hex_frame (percentiles 1 and 99). -/
def srcBoundsV1 (img : Img) : Q3 × Q3 :=
  let masked := maskedDistances img 20 (create_hex_distance_field img.width img.height)
  (percentile 1 masked, percentile 99 masked)

/-- Target ring bounds shared by squash_hex_frame and squash_hex_frame_v2:
tgt_thickness = src_thickness * compression_factor, centered on the
source-bound midpoint. -/
def targetBoundsSquash (srcInner srcOuter : Q3) (compressionFactor : ℚ) : Q3 × Q3 :=
  let srcThickness := srcOuter - srcInner
  let srcCenter := (srcInner + srcOuter) / Q3.ofQ 2
  let tgtThickness := srcThickness * Q3.ofQ compressionFactor
  (srcCenter - tgtThickness / Q3.ofQ 2, srcCenter + tgtThickness / Q3.ofQ 2)

/-- Per-pixel coordinate map of squash_hex_frame_v2 (lines 56-89): margin 2,
epsilon 0.001 substituted when d == 0, and t clamped to [0, 1]. -/
def warpCoordV2 (width height : ℕ)
    (srcInner srcThickness tgtInner tgtThickness tgtOuter : Q3) (row col : ℕ) : Q3 × Q3 :=
  let d := create_hex_distance_field_pointy width height row col
  if Q3.ble (tgtInner - Q3.ofQ 2) d && Q3.ble d (tgtOuter + Q3.ofQ 2) then
    let validD := if d = 0 then Q3.ofQ (1/1000) else d
    let t := (validD - tgtInner) / tgtThickness
    let tClamped := Q3.clip t 0 1
    let dSrc := srcInner + tClamped * srcThickness
    let scale := dSrc / validD
    (Q3.ofQ ((height : ℚ) / 2) + Q3.ofQ ((row : ℚ) - (height : ℚ) / 2) * scale,
     Q3.ofQ ((width : ℚ) / 2) + Q3.ofQ ((col : ℚ) - (width : ℚ) / 2) * scale)
  else (Q3.ofQ (row : ℚ), Q3.ofQ (col : ℚ))

/-- Per-pixel coordinate map of squash_hex_frame (lines 74-102): margin 1,
epsilon 0.001 substituted when d == 0, and t NOT clamped. -/
def warpCoordV1 (width height : ℕ)
    (srcInner srcThickness tgtInner tgtThickness tgtOuter : Q3) (row col : ℕ) : Q3 × Q3 :=
  let d := create_hex_distance_field width height row col
  if Q3.ble (tgtInner - Q3.ofQ 1) d && Q3.ble d (tgtOuter + Q3.ofQ 1) then
    let validD := if d = 0 then Q3.ofQ (1/1000) else d
    let t := (validD - tgtInner) / tgtThickness
    let dSrc := srcInner + t * srcThickness
    let scale := dSrc / validD
    (Q3.ofQ ((height : ℚ) / 2) + Q3.ofQ ((row : ℚ) - (height : ℚ) / 2) * scale,
     Q3.ofQ ((width : ℚ) / 2) + Q3.ofQ ((col : ℚ) - (width : ℚ) / 2) * scale)
  else (Q3.ofQ (row : ℚ), Q3.ofQ (col : ℚ))

/-- Geometric edge mask with edge_softness = 1.5, the formula shared by both
squash scripts: clip((d - tgt_inner)/1.5, 0, 1) * clip((tgt_outer - d)/1.5, 0, 1). -/
def geoAlpha (tgtInner tgtOuter d : Q3) : Q3 :=
  Q3.clip ((d - tgtInner) / Q3.ofQ (3/2)) 0 1 * Q3.clip ((tgtOuter - d) / Q3.ofQ (3/2)) 0 1

/-- Final alpha of squash_hex_frame_v2 (lines 106-115):
(sampled/255) * geo_alpha * 255, cast to uint8. -/
def finalAlphaV2 (tgtInner tgtOuter d : Q3) (sampled : ℕ) : ℕ :=
  q3ToUint8 (Q3.ofQ ((sampled : ℚ) / 255) * geoAlpha tgtInner tgtOuter d * Q3.ofQ 255)

/-- Final alpha of squash_hex_frame (lines 116-126): sampled * alpha_factor,
cast to uint8. -/
def finalAlphaV1 (tgtInner tgtOuter d : Q3) (sampled : ℕ) : ℕ :=
  q3ToUint8 (Q3.ofQ (sampled : ℚ) * geoAlpha tgtInner tgtOuter d)

/-- Interface of the external channel resampler standing for
scipy.ndimage.map_coordinates (order-3 spline, mode constant, cval 0): given
one source channel grid, the coordinate map and a destination pixel it
returns the sampled 0..255 value.  No claim depends on the interpolation
kernel itself, so it is kept as a parameter of the transforms. -/
def Resampler : Type := (ℕ → ℕ → ℕ) → (ℕ → ℕ → Q3 × Q3) → ℕ → ℕ → ℕ

/-- squash_hex_frame_v2 (squash_hex_frame_v2.py, lines 24-118).  Returns none
exactly when the early return for an empty image fires. -/
def squash_hex_frame_v2 (resample : Resampler) (compression_factor : ℚ) (img : Img) :
    Option Img :=
  let width := img.width
  let height := img.height
  let dist := create_hex_distance_field_pointy width height
  let masked := maskedDistances img 20 dist
  if masked.isEmpty then none
  else
    let src_inner := (srcBoundsV2 img).1
    let src_outer := (srcBoundsV2 img).2
    let src_thickness := src_outer - src_inner
    let tgt_thickness := src_thickness * Q3.ofQ compression_factor
    let tgt_inner := (targetBoundsSquash src_inner src_outer compression_factor).1
    let tgt_outer := (targetBoundsSquash src_inner src_outer compression_factor).2
    let cmap := warpCoordV2 width height src_inner src_thickness tgt_inner tgt_thickness tgt_outer
    some { width := width, height := height,
           pixel := fun r c =>
             { r := resample (fun i j => (img.pixel i j).r) cmap r c,
               g := resample (fun i j => (img.pixel i j).g) cmap r c,
               b := resample (fun i j => (img.pixel i j).b) cmap r c,
               a := finalAlphaV2 tgt_inner tgt_outer (dist r c)
                      (resample (fun i j => (img.pixel i j).a) cmap r c) } }

/-- squash_hex_frame (squash_hex_frame.py, lines 18-130). -/
def squash_hex_frame (resample : Resampler) (compression_factor : ℚ) (img : Img) :
    Option Img :=
  let width := img.width
  let height := img.height
  let dist := create_hex_distance_field width height
  let masked := maskedDistances img 20 dist
  if masked.isEmpty then none
  else
    let src_inner := (srcBoundsV1 img).1
    let src_outer := (srcBoundsV1 img).2
    let src_thickness := src_outer - src_inner
    let tgt_thickness := src_thickness * Q3.ofQ compression_factor
    let tgt_inner := (targetBoundsSquash src_inner src_outer compression_factor).1
    let tgt_outer := (targetBoundsSquash src_inner src_outer compression_factor).2
    let cmap := warpCoordV1 width height src_inner src_thickness tgt_inner tgt_thickness tgt_outer
    some { width := width, height := height,
           pixel := fun r c =>
             { r := resample (fun i j => (img.pixel i j).r) cmap r c,
               g := resample (fun i j => (img.pixel i j).g) cmap r c,
               b := resample (fun i j => (img.pixel i j).b) cmap r c,
               a := finalAlphaV1 tgt_inner tgt_outer (dist r c)
                      (resample (fun i j => (img.pixel i j).a) cmap r c) } }

/-- The geometric ring mask of smart_hex_crop scaled to 0..255
(new_alpha_channel = (mask_f * 255).astype(uint8), lines 62-106). -/
def ringMask255 (img : Img) (thickness_factor smoothing : ℚ) (row col : ℕ) : ℕ :=
  let dist := create_hex_distance_field img.width img.height
  let masked := maskedDistances img 20 dist
  let current_outer := percentile 98 masked
  let current_inner := percentile 2 masked
  let current_thickness := current_outer - current_inner
  let target_thickness := current_thickness * Q3.ofQ thickness_factor
  let shrink := (current_thickness - target_thickness) / Q3.ofQ 2
  let new_outer := current_outer - shrink * Q3.ofQ (1/2)
  let new_inner := current_inner + shrink * Q3.ofQ (3/2)
  let d := dist row col
  let outer_alpha := Q3.clip ((new_outer - d) / Q3.ofQ smoothing) 0 1
  let inner_alpha := Q3.clip ((d - new_inner) / Q3.ofQ smoothing) 0 1
  q3ToUint8 (outer_alpha * inner_alpha * Q3.ofQ 255)

/-- smart_hex_crop (smart_hex_crop.py, lines 40-120): keeps RGB, replaces
alpha by min(original alpha, geometric ring mask). -/
def smart_hex_crop (thickness_factor smoothing : ℚ) (img : Img) : Option Img :=
  let dist := create_hex_distance_field img.width img.height
  if (maskedDistances img 20 dist).isEmpty then none
  else
    some { img with pixel := fun r c =>
      { img.pixel r c with
        a := min ((img.pixel r c).a) (ringMask255 img thickness_factor smoothing r c) } }

/-- One step of scipy.ndimage.binary_erosion with the default cross-shaped
structuring element and border_value 0 (out-of-bounds counts as background). -/
def binary_erosion (width height : ℕ) (mask : ℕ → ℕ → Bool) : ℕ → ℕ → Bool :=
  fun r c =>
    mask r c
      && (decide (0 < r) && mask (r - 1) c)
      && (decide (r + 1 < height) && mask (r + 1) c)
      && (decide (0 < c) && mask r (c - 1))
      && (decide (c + 1 < width) && mask r (c + 1))

/-- thin_frame (thin_frame.py, lines 5-33): erode the opaque mask
(alpha > 128) and clear the alpha of pixels removed by the erosion. -/
def thin_frame (erosion_iterations : ℕ) (img : Img) : Img :=
  let mask := fun r c => decide (128 < (img.pixel r c).a)
  let eroded := (binary_erosion img.width img.height)^[erosion_iterations] mask
  { img with pixel := fun r c =>
      if mask r c && !eroded r c then
        { img.pixel r c with a := 0 }
      else img.pixel r c }

/-!  extract_uniform.py  -/

/-- PIL Image.getbbox: bounding box (left, upper, right, lower) of the pixels
that are not (0,0,0,0); none when every pixel is zero. -/
def getbbox (img : Img) : Option (ℕ × ℕ × ℕ × ℕ) :=
  let nz := (List.range img.height).flatMap fun r =>
    (List.range img.width).filterMap fun c =>
      if img.pixel r c = ⟨0, 0, 0, 0⟩ then none else some (r, c)
  if nz.isEmpty then none
  else
    some (nz.foldl (fun m p => min m p.2) img.width,
          nz.foldl (fun m p => min m p.1) img.height,
          nz.foldl (fun m p => max m (p.2 + 1)) 0,
          nz.foldl (fun m p => max m (p.1 + 1)) 0)

/-- PIL Image.crop restricted to an in-bounds box. -/
def cropImg (img : Img) (left upper right lower : ℕ) : Img :=
  { width := right - left, height := lower - upper,
    pixel := fun r c => img.pixel (upper + r) (left + c) }

/-- Extract one tile column of the strip and crop it to its bbox
(extract_uniform.py, lines 46-73). -/
def cropTile (img : Img) (tileWidth tileHeight col : ℕ) : Option Img :=
  let tile : Img := { width := tileWidth, height := tileHeight,
                      pixel := fun r c => img.pixel r (col * tileWidth + c) }
  (getbbox tile).map fun bb => cropImg tile bb.1 bb.2.1 bb.2.2.1 bb.2.2.2

/-- The non-empty crops of the strip, in column order (cols = 4, rows = 1,
stopping after numIcons names). -/
def uniformCrops (img : Img) (numIcons : ℕ) : List Img :=
  (List.range (min 4 numIcons)).filterMap fun col =>
    cropTile img (img.width / 4) (img.height / 1) col

/-- The unified output size: max crop dimensions plus padding on each side
(extract_uniform.py, lines 75-77). -/
def uniformSize (img : Img) (numIcons padding : ℕ) : ℕ × ℕ :=
  let kept := uniformCrops img numIcons
  (kept.foldl (fun m c => max m c.width) 0 + padding * 2,
   kept.foldl (fun m c => max m c.height) 0 + padding * 2)

/-- Paste a crop centered on a transparent canvas of the unified size
(extract_uniform.py, lines 90-98). -/
def placeCentered (finalW finalH : ℕ) (icon : Img) : Img :=
  let xPos := (finalW - icon.width) / 2
  let yPos := (finalH - icon.height) / 2
  { width := finalW, height := finalH,
    pixel := fun r c =>
      if yPos ≤ r ∧ r < yPos + icon.height ∧ xPos ≤ c ∧ c < xPos + icon.width then
        icon.pixel (r - yPos) (c - xPos)
      else ⟨0, 0, 0, 0⟩ }

/-- extract_horizontal_uniform (extract_uniform.py, lines 10-108): the list of
icon images written, in order. -/
def extract_horizontal_uniform (img : Img) (numIcons padding : ℕ) : List Img :=
  (uniformCrops img numIcons).map
    (placeCentered (uniformSize img numIcons padding).1 (uniformSize img numIcons padding).2)

/-!  Helper lemmas about the embedded pipeline.  -/

lemma Q3.q3_add_zero (x : Q3) : x + 0 = x :=
  Q3.ext (by simp) (by simp)

lemma Q3.q3_sub_self (x : Q3) : x - x = 0 :=
  Q3.ext (by simp) (by simp)

lemma Q3.ofQ_zero : Q3.ofQ 0 = 0 := rfl

lemma Q3.qmax_eq_right {x y : Q3} (h : x.toReal ≤ y.toReal) : Q3.qmax x y = y := by
  unfold Q3.qmax
  rw [if_pos ((Q3.ble_iff x y).mpr h)]

lemma Q3.qmax_eq_left {x y : Q3} (h : y.toReal ≤ x.toReal) : Q3.qmax x y = x := by
  unfold Q3.qmax
  by_cases hb : Q3.ble x y = true
  · rw [if_pos hb]
    exact (Q3.toReal_inj.mp (le_antisymm ((Q3.ble_iff x y).mp hb) h)).symm
  · rw [if_neg hb]

/-- The real value of the pointy-top distance field is exactly the spec
formula max(|y|*(sqrt3/2) + |x|*0.5, |x|). -/
lemma create_hex_distance_field_pointy_toReal (width height row col : ℕ) :
    (create_hex_distance_field_pointy width height row col).toReal
      = max (|(row : ℝ) - (height : ℝ)/2| * (Real.sqrt 3/2) + |(col : ℝ) - (width : ℝ)/2| * (1/2))
          |(col : ℝ) - (width : ℝ)/2| := by
  simp only [create_hex_distance_field_pointy, Q3.toReal_qmax, Q3.toReal_add, Q3.toReal_mul,
    Q3.toReal_div, Q3.toReal_ofQ, Q3.toReal_sqrt3]
  congr 1 <;> push_cast <;> ring

/-- The real value of create_hex_distance_field is the x/y-swapped (flat-top)
formula max(|x|*(sqrt3/2) + |y|*0.5, |y|). -/
lemma create_hex_distance_field_toReal (width height row col : ℕ) :
    (create_hex_distance_field width height row col).toReal
      = max (|(col : ℝ) - (width : ℝ)/2| * (Real.sqrt 3/2) + |(row : ℝ) - (height : ℝ)/2| * (1/2))
          |(row : ℝ) - (height : ℝ)/2| := by
  simp only [create_hex_distance_field, Q3.toReal_qmax, Q3.toReal_add, Q3.toReal_mul,
    Q3.toReal_div, Q3.toReal_ofQ, Q3.toReal_sqrt3]
  congr 1 <;> push_cast <;> ring

/-- A zero of the pointy-top distance field only happens at the exact image
center. -/
lemma hexPointy_zero_coords {width height row col : ℕ}
    (h : (create_hex_distance_field_pointy width height row col).toReal = 0) :
    (row : ℚ) - (height : ℚ)/2 = 0 ∧ (col : ℚ) - (width : ℚ)/2 = 0 := by
  rw [create_hex_distance_field_pointy_toReal] at h
  have s0 : 0 < Real.sqrt 3 := Real.sqrt_pos.mpr (by norm_num)
  have hx : |(col : ℝ) - (width : ℝ)/2| = 0 := by
    have h1 : |(col : ℝ) - (width : ℝ)/2| ≤ 0 := by
      rw [← h]; exact le_max_right _ _
    exact le_antisymm h1 (abs_nonneg _)
  have hy : |(row : ℝ) - (height : ℝ)/2| = 0 := by
    have h1 : |(row : ℝ) - (height : ℝ)/2| * (Real.sqrt 3/2) + |(col : ℝ) - (width : ℝ)/2| * (1/2) ≤ 0 := by
      rw [← h]; exact le_max_left _ _
    rw [hx] at h1
    have h2 := abs_nonneg ((row : ℝ) - (height : ℝ)/2)
    nlinarith
  constructor
  · have h3 : (row : ℝ) - (height : ℝ)/2 = 0 := abs_eq_zero.mp hy
    have h4 : (((row : ℚ) - (height : ℚ)/2 : ℚ) : ℝ) = 0 := by push_cast; linarith
    exact_mod_cast h4
  · have h3 : (col : ℝ) - (width : ℝ)/2 = 0 := abs_eq_zero.mp hx
    have h4 : (((col : ℚ) - (width : ℚ)/2 : ℚ) : ℝ) = 0 := by push_cast; linarith
    exact_mod_cast h4

/-- q3ToUint8 of the exact value 0 is 0. -/
lemma q3ToUint8_zero : q3ToUint8 0 = 0 := by
  have hfloor : Q3.floor 0 = 0 := by
    norm_num [Q3.floor, Q3.floorSqrt3Mul, Q3.bnonneg]
  simp [q3ToUint8, hfloor]

/-- The geometric edge mask vanishes strictly outside the softened band. -/
lemma geoAlpha_eq_zero {tgtInner tgtOuter d : Q3}
    (h : d.toReal < tgtInner.toReal - 3/2 ∨ tgtOuter.toReal + 3/2 < d.toReal) :
    geoAlpha tgtInner tgtOuter d = 0 := by
  unfold geoAlpha
  rcases h with h | h
  · have hz : ((d - tgtInner) / Q3.ofQ (3/2)).toReal ≤ 0 := by
      rw [Q3.toReal_div, Q3.toReal_sub, Q3.toReal_ofQ]
      rw [div_nonpos_iff]
      right
      constructor
      · linarith
      · push_cast
        norm_num
    rw [Q3.clip01_eq_zero hz, Q3.q3_zero_mul]
  · have hz : ((tgtOuter - d) / Q3.ofQ (3/2)).toReal ≤ 0 := by
      rw [Q3.toReal_div, Q3.toReal_sub, Q3.toReal_ofQ]
      rw [div_nonpos_iff]
      right
      constructor
      · linarith
      · push_cast
        norm_num
    rw [Q3.clip01_eq_zero hz, Q3.q3_mul_zero]

/-- v2 final alpha is 0 wherever the geometric mask is 0. -/
lemma finalAlphaV2_eq_zero {tgtInner tgtOuter d : Q3} (sampled : ℕ)
    (h : geoAlpha tgtInner tgtOuter d = 0) :
    finalAlphaV2 tgtInner tgtOuter d sampled = 0 := by
  unfold finalAlphaV2
  rw [h, Q3.q3_mul_zero, Q3.q3_zero_mul, q3ToUint8_zero]

/-- v1 final alpha is 0 wherever the geometric mask is 0. -/
lemma finalAlphaV1_eq_zero {tgtInner tgtOuter d : Q3} (sampled : ℕ)
    (h : geoAlpha tgtInner tgtOuter d = 0) :
    finalAlphaV1 tgtInner tgtOuter d sampled = 0 := by
  unfold finalAlphaV1
  rw [h, Q3.q3_mul_zero, q3ToUint8_zero]

/-- If no in-bounds pixel is above the threshold then the mask is empty. -/
lemma maskedDistances_eq_nil {img : Img} {thr : ℕ} (field : ℕ → ℕ → Q3)
    (h : ∀ r, r < img.height → ∀ c, c < img.width → (img.pixel r c).a ≤ thr) :
    maskedDistances img thr field = [] := by
  unfold maskedDistances
  rw [List.flatMap_eq_nil_iff]
  intro r hr
  rw [List.filterMap_eq_nil_iff]
  intro c hc
  rw [if_neg]
  exact not_lt.mpr (h r (List.mem_range.mp hr) c (List.mem_range.mp hc))

/-- np.percentile of a one-element sample is that element, for every q. -/
lemma percentile_singleton (q : ℚ) (x : Q3) : percentile q [x] = x := by
  have hs : sortQ3 [x] = [x] := rfl
  simp only [percentile, hs, List.length_singleton, Nat.cast_one, sub_self, mul_zero,
    Int.floor_zero, Int.toNat_zero, List.getD_cons_zero, Nat.cast_zero, sub_zero,
    Q3.ofQ_zero, Q3.q3_zero_mul, Q3.q3_add_zero]

lemma init_le_foldl_max (f : Img → ℕ) :
    ∀ (l : List Img) (init : ℕ), init ≤ l.foldl (fun m c => max m (f c)) init := by
  intro l
  induction l with
  | nil => intro init; exact le_refl _
  | cons hd tl ih =>
    intro init
    simp only [List.foldl_cons]
    exact le_trans (le_max_left init (f hd)) (ih (max init (f hd)))

lemma mem_le_foldl_max (f : Img → ℕ) :
    ∀ (l : List Img) (init : ℕ) (x : Img), x ∈ l →
      f x ≤ l.foldl (fun m c => max m (f c)) init := by
  intro l
  induction l with
  | nil => intro init x hx; cases hx
  | cons hd tl ih =>
    intro init x hx
    simp only [List.foldl_cons]
    rcases List.mem_cons.mp hx with rfl | hx
    · exact le_trans (le_max_right init (f x)) (init_le_foldl_max f tl _)
    · exact ih _ x hx

lemma getD_map_lt (l : List Img) (f : Img → Img) (i : ℕ) (h : i < l.length) (d : Img) :
    (l.map f).getD i d = f (l.getD i d) := by
  rw [List.getD_eq_getElem?_getD, List.getElem?_map, List.getD_eq_getElem?_getD,
    List.getElem?_eq_getElem h]
  rfl

/-!  Concrete inputs used by the witnesses and counterexamples.  -/

/-- A fully transparent 4x4 image. -/
def imgEmpty : Img := ⟨4, 4, fun _ _ => ⟨0, 0, 0, 0⟩⟩

/-- A 4x4 image whose only opaque pixel is at row 2, col 0 (pointy-top
distance exactly 2). -/
def imgA : Img := ⟨4, 4, fun r c => if r = 2 ∧ c = 0 then ⟨255, 255, 255, 255⟩ else ⟨0, 0, 0, 0⟩⟩

/-- A 4x4 image whose only opaque pixel is at row 0, col 2 (flat-top
distance exactly 2). -/
def imgB : Img := ⟨4, 4, fun r c => if r = 0 ∧ c = 2 then ⟨255, 255, 255, 255⟩ else ⟨0, 0, 0, 0⟩⟩

/-- A 4x2 icon strip whose only nonzero pixel is at row 0, col 0. -/
def imgStrip : Img := ⟨4, 2, fun r c => if r = 0 ∧ c = 0 then ⟨255, 0, 0, 255⟩ else ⟨0, 0, 0, 0⟩⟩

/-- A trivial stand-in resampler (the claims hold for every resampler). -/
def resampleZero : Resampler := fun _ _ _ _ => 0

lemma maskedDistances_imgA :
    maskedDistances imgA 20 (create_hex_distance_field_pointy imgA.width imgA.height)
      = [create_hex_distance_field_pointy 4 4 2 0] := by
  simp [maskedDistances, imgA, List.range_succ]

lemma maskedDistances_imgB :
    maskedDistances imgB 20 (create_hex_distance_field imgB.width imgB.height)
      = [create_hex_distance_field 4 4 0 2] := by
  simp [maskedDistances, imgB, List.range_succ]

lemma hexPointy_imgA_val : create_hex_distance_field_pointy 4 4 2 0 = Q3.ofQ 2 := by
  apply Q3.toReal_inj.mp
  rw [create_hex_distance_field_pointy_toReal, Q3.toReal_ofQ]
  norm_num

lemma hexFlat_imgB_val : create_hex_distance_field 4 4 0 2 = Q3.ofQ 2 := by
  apply Q3.toReal_inj.mp
  rw [create_hex_distance_field_toReal, Q3.toReal_ofQ]
  norm_num

lemma srcBoundsV2_imgA : srcBoundsV2 imgA = (Q3.ofQ 2, Q3.ofQ 2) := by
  simp only [srcBoundsV2]
  rw [maskedDistances_imgA, hexPointy_imgA_val, percentile_singleton, percentile_singleton]

lemma srcBoundsV1_imgB : srcBoundsV1 imgB = (Q3.ofQ 2, Q3.ofQ 2) := by
  simp only [srcBoundsV1]
  rw [maskedDistances_imgB, hexFlat_imgB_val, percentile_singleton, percentile_singleton]

lemma targetBounds_imgVal :
    targetBoundsSquash (Q3.ofQ 2) (Q3.ofQ 2) (1/2) = (Q3.ofQ 2, Q3.ofQ 2) := by
  unfold targetBoundsSquash
  rw [Prod.mk.injEq]
  constructor <;> apply Q3.toReal_inj.mp <;>
    simp only [Q3.toReal_sub, Q3.toReal_add, Q3.toReal_mul, Q3.toReal_div, Q3.toReal_ofQ] <;>
    norm_num

/-!  Correctness of the exact floor, which backs the numpy uint8 cast model.  -/

lemma natSqrt_floor_bracket (q : ℚ) (hq : 0 ≤ q) :
    ((Nat.sqrt (Int.toNat ⌊q⌋) : ℕ) : ℝ) ≤ Real.sqrt ((q : ℚ) : ℝ)
    ∧ Real.sqrt ((q : ℚ) : ℝ) < ((Nat.sqrt (Int.toNat ⌊q⌋) : ℕ) : ℝ) + 1 := by
  have hm : ((Int.toNat ⌊q⌋ : ℕ) : ℤ) = ⌊q⌋ := Int.toNat_of_nonneg (Int.floor_nonneg.mpr hq)
  constructor
  · rw [Real.le_sqrt (Nat.cast_nonneg _) (by exact_mod_cast hq)]
    have h1 : ((Nat.sqrt (Int.toNat ⌊q⌋) : ℕ) : ℝ) ^ 2 ≤ ((Int.toNat ⌊q⌋ : ℕ) : ℝ) := by
      exact_mod_cast Nat.sqrt_le' (Int.toNat ⌊q⌋)
    have h2 : (((Int.toNat ⌊q⌋ : ℕ) : ℚ) : ℚ) ≤ q := by
      have h3 := Int.floor_le q
      have h4 : ((Int.toNat ⌊q⌋ : ℕ) : ℚ) = ((⌊q⌋ : ℤ) : ℚ) := by exact_mod_cast hm
      rw [h4]
      exact h3
    have h5 : ((Int.toNat ⌊q⌋ : ℕ) : ℝ) ≤ ((q : ℚ) : ℝ) := by exact_mod_cast h2
    linarith
  · rw [Real.sqrt_lt' (by positivity)]
    have h2 : ((Int.toNat ⌊q⌋ : ℕ) : ℤ) < ((Nat.sqrt (Int.toNat ⌊q⌋) + 1 : ℕ) : ℤ) ^ 2 := by
      exact_mod_cast Nat.lt_succ_sqrt' (Int.toNat ⌊q⌋)
    have h3 : q < ((⌊q⌋ : ℤ) : ℚ) + 1 := Int.lt_floor_add_one q
    have h4 : ((⌊q⌋ : ℤ) : ℚ) + 1 ≤ (((Nat.sqrt (Int.toNat ⌊q⌋) + 1 : ℕ) ^ 2 : ℕ) : ℚ) := by
      rw [← hm]
      exact_mod_cast h2
    have h5 : q < (((Nat.sqrt (Int.toNat ⌊q⌋) + 1 : ℕ) ^ 2 : ℕ) : ℚ) := lt_of_lt_of_le h3 h4
    have h6 : ((q : ℚ) : ℝ) < (((Nat.sqrt (Int.toNat ⌊q⌋) + 1 : ℕ) ^ 2 : ℕ) : ℝ) := by
      exact_mod_cast h5
    calc ((q : ℚ) : ℝ) < (((Nat.sqrt (Int.toNat ⌊q⌋) + 1 : ℕ) ^ 2 : ℕ) : ℝ) := h6
      _ = (((Nat.sqrt (Int.toNat ⌊q⌋) : ℕ) : ℝ) + 1) ^ 2 := by push_cast; ring

lemma floorSqrt3Mul_bracket {b : ℚ} (hb : 0 ≤ b) :
    ((Q3.floorSqrt3Mul b : ℤ) : ℝ) ≤ (b : ℝ) * Real.sqrt 3
    ∧ (b : ℝ) * Real.sqrt 3 < ((Q3.floorSqrt3Mul b : ℤ) : ℝ) + 1 := by
  have hq : (0 : ℚ) ≤ 3 * b ^ 2 := by positivity
  have hbs : (b : ℝ) * Real.sqrt 3 = Real.sqrt (((3 * b ^ 2 : ℚ) : ℚ) : ℝ) := by
    push_cast
    rw [Real.sqrt_mul (by norm_num) ((b : ℝ) ^ 2), Real.sqrt_sq (by exact_mod_cast hb)]
    ring
  obtain ⟨h1, h2⟩ := natSqrt_floor_bracket (3 * b ^ 2) hq
  unfold Q3.floorSqrt3Mul
  rw [hbs]
  constructor
  · exact_mod_cast h1
  · exact_mod_cast h2

lemma floor_pick (x : Q3) (n0 : ℤ)
    (hl : ((n0 : ℤ) : ℝ) ≤ x.toReal) (hh : x.toReal < ((n0 : ℤ) : ℝ) + 2) :
    (((if (x - Q3.ofQ ((n0 : ℤ) + 1 : ℚ)).bnonneg then n0 + 1 else n0 : ℤ) : ℤ) : ℝ) ≤ x.toReal
    ∧ x.toReal < (((if (x - Q3.ofQ ((n0 : ℤ) + 1 : ℚ)).bnonneg then n0 + 1 else n0 : ℤ) : ℤ) : ℝ) + 1 := by
  by_cases hcond : (x - Q3.ofQ ((n0 : ℤ) + 1 : ℚ)).bnonneg = true
  · rw [if_pos hcond]
    have h1 := (Q3.bnonneg_iff _).mp hcond
    rw [Q3.toReal_sub, Q3.toReal_ofQ] at h1
    push_cast at h1 ⊢
    constructor <;> linarith
  · rw [if_neg hcond]
    have h1 : ¬ (0 ≤ x.toReal - ((((n0 : ℤ) + 1 : ℚ)) : ℝ)) := by
      intro hge
      exact hcond ((Q3.bnonneg_iff _).mpr (by rw [Q3.toReal_sub, Q3.toReal_ofQ]; exact hge))
    have h2 := not_le.mp h1
    push_cast at h2 ⊢
    constructor <;> linarith

/-- Q3.floor really is the floor of the real value. -/
lemma Q3.floor_bracket (x : Q3) :
    ((x.floor : ℤ) : ℝ) ≤ x.toReal ∧ x.toReal < ((x.floor : ℤ) : ℝ) + 1 := by
  have ha1 : ((⌊x.a⌋ : ℤ) : ℝ) ≤ (x.a : ℝ) := by exact_mod_cast Int.floor_le x.a
  have ha2 : (x.a : ℝ) < ((⌊x.a⌋ : ℤ) : ℝ) + 1 := by exact_mod_cast Int.lt_floor_add_one x.a
  rcases le_or_lt 0 x.b with hb | hb
  · obtain ⟨h1, h2⟩ := floorSqrt3Mul_bracket hb
    have hl : ((⌊x.a⌋ + Q3.floorSqrt3Mul x.b : ℤ) : ℝ) ≤ x.toReal := by
      rw [Q3.toReal]
      push_cast
      linarith
    have hh : x.toReal < ((⌊x.a⌋ + Q3.floorSqrt3Mul x.b : ℤ) : ℝ) + 2 := by
      rw [Q3.toReal]
      push_cast
      linarith
    have hp := floor_pick x (⌊x.a⌋ + Q3.floorSqrt3Mul x.b) hl hh
    simp only [Q3.floor, if_pos hb]
    exact_mod_cast hp
  · have hb' : (0 : ℚ) ≤ -x.b := by linarith
    obtain ⟨h1, h2⟩ := floorSqrt3Mul_bracket hb'
    have hbne : (x.b : ℝ) ≠ 0 := by
      intro hh
      have : x.b = 0 := by exact_mod_cast hh
      linarith
    have hstrict : ((Q3.floorSqrt3Mul (-x.b) : ℤ) : ℝ) < ((-x.b : ℚ) : ℝ) * Real.sqrt 3 := by
      rcases lt_or_eq_of_le h1 with h | h
      · exact h
      · exfalso
        have hs : Real.sqrt 3 = (((Q3.floorSqrt3Mul (-x.b) : ℤ) / (-x.b : ℚ) : ℚ) : ℝ) := by
          have hbne2 : (-(x.b : ℝ)) ≠ 0 := neg_ne_zero.mpr hbne
          push_cast
          push_cast at h
          rw [eq_div_iff hbne2]
          linear_combination -h
        exact Q3.irrational_sqrt_three ⟨(Q3.floorSqrt3Mul (-x.b) : ℤ) / (-x.b : ℚ), hs.symm⟩
    have hl : ((⌊x.a⌋ + (-Q3.floorSqrt3Mul (-x.b) - 1) : ℤ) : ℝ) ≤ x.toReal := by
      rw [Q3.toReal]
      push_cast
      push_cast at h2
      linarith
    have hh : x.toReal < ((⌊x.a⌋ + (-Q3.floorSqrt3Mul (-x.b) - 1) : ℤ) : ℝ) + 2 := by
      rw [Q3.toReal]
      push_cast
      push_cast at hstrict
      linarith
    have hp := floor_pick x (⌊x.a⌋ + (-Q3.floorSqrt3Mul (-x.b) - 1)) hl hh
    simp only [Q3.floor, if_neg (not_le.mpr hb)]
    exact_mod_cast hp

/-- Q3.floor agrees with the real floor function. -/
lemma Q3.floor_eq_floor (x : Q3) : x.floor = ⌊x.toReal⌋ := by
  obtain ⟨h1, h2⟩ := Q3.floor_bracket x
  exact (Int.floor_eq_iff.mpr ⟨h1, h2⟩).symm

/-- The uint8 cast model in terms of the real value. -/
lemma q3ToUint8_eq (x : Q3) : q3ToUint8 x = (⌊x.toReal⌋).toNat % 256 := by
  rw [q3ToUint8, Q3.floor_eq_floor]

/-- The per-pixel source coordinate exactly as the spec states it (section
4.3 steps 1-4): t clamped to [0,1], scale = d_src / d, and d replaced by the
epsilon 0.001 when d == 0.  Used to compare the code's coordinate maps
against the specified formula. -/
noncomputable def specWarpCoord (width height : ℕ)
    (srcInner srcThickness tgtInner tgtThickness : ℝ) (d : ℝ) (row col : ℕ) : ℝ × ℝ :=
  let dg := if d = 0 then 1/1000 else d
  let t := min (max ((dg - tgtInner) / tgtThickness) 0) 1
  let dSrc := srcInner + t * srcThickness
  let scale := dSrc / dg
  ((height : ℝ)/2 + ((row : ℝ) - (height : ℝ)/2) * scale,
   (width : ℝ)/2 + ((col : ℝ) - (width : ℝ)/2) * scale)

/-!  Claims  -/

/-- C2 (amended): the pointy-top distance field generator of
squash_hex_frame_v2 produces, at pixel (row, col), exactly
max(|y| * (sqrt3/2) + |x| * 0.5, |x|) for x = col - W/2, y = row - H/2 (a
pure function of W, H and the pixel position, independent of pixel content),
and this value is 0 at the image center; the create_hex_distance_field used
by squash_hex_frame.py and smart_hex_crop.py instead produces the
x/y-swapped (flat-top) value max(|x| * (sqrt3/2) + |y| * 0.5, |y|). -/
theorem spec_c2 (width height row col : ℕ) :
    (create_hex_distance_field_pointy width height row col).toReal
        = max (|(row : ℝ) - (height : ℝ)/2| * (Real.sqrt 3/2) + |(col : ℝ) - (width : ℝ)/2| * (1/2))
            |(col : ℝ) - (width : ℝ)/2|
    ∧ ((row : ℝ) = (height : ℝ)/2 → (col : ℝ) = (width : ℝ)/2 →
        (create_hex_distance_field_pointy width height row col).toReal = 0)
    ∧ (create_hex_distance_field width height row col).toReal
        = max (|(col : ℝ) - (width : ℝ)/2| * (Real.sqrt 3/2) + |(row : ℝ) - (height : ℝ)/2| * (1/2))
            |(row : ℝ) - (height : ℝ)/2| := by
  refine ⟨create_hex_distance_field_pointy_toReal width height row col, ?_,
    create_hex_distance_field_toReal width height row col⟩
  intro h1 h2
  rw [create_hex_distance_field_pointy_toReal, h1, h2]
  simp

/-- C2 witness: at the exact center of a 4x4 image the pointy-top field is 0. -/
theorem spec_c2_witness : (create_hex_distance_field_pointy 4 4 2 2).toReal = 0 :=
  (spec_c2 4 4 2 2).2.1 (by norm_num) (by norm_num)

/-- C2 counterexample: at W = H = 4, row = 0, col = 2 the
create_hex_distance_field generator (commented pointy-top in
squash_hex_frame.py and used by smart_hex_crop.py) returns 2, not the value
sqrt 3 given by the claimed pointy-top formula. -/
theorem spec_c2_counterexample :
    (create_hex_distance_field 4 4 0 2).toReal
      ≠ max (|(0 : ℝ) - (4 : ℝ)/2| * (Real.sqrt 3/2) + |(2 : ℝ) - (4 : ℝ)/2| * (1/2))
          |(2 : ℝ) - (4 : ℝ)/2| := by
  have hL : (create_hex_distance_field 4 4 0 2).toReal = 2 := by
    rw [create_hex_distance_field_toReal]
    norm_num
  have hR : max (|(0 : ℝ) - (4 : ℝ)/2| * (Real.sqrt 3/2) + |(2 : ℝ) - (4 : ℝ)/2| * (1/2))
      |(2 : ℝ) - (4 : ℝ)/2| = Real.sqrt 3 := by
    have h1 : |(0 : ℝ) - (4 : ℝ)/2| * (Real.sqrt 3/2) + |(2 : ℝ) - (4 : ℝ)/2| * (1/2)
        = Real.sqrt 3 := by
      rw [show |(0 : ℝ) - (4 : ℝ)/2| = 2 by norm_num, show |(2 : ℝ) - (4 : ℝ)/2| = 0 by norm_num]
      ring
    rw [h1, show |(2 : ℝ) - (4 : ℝ)/2| = 0 by norm_num]
    exact max_eq_left (Real.sqrt_nonneg 3)
  rw [hL, hR]
  intro h
  have h2 := Q3.sqrt3_mul_self
  rw [← h] at h2
  norm_num at h2

/-- C5: the symmetric shrink policy of both squash scripts scales the ring
thickness by the factor f in (0,1] and keeps the bound midpoint unchanged. -/
theorem spec_c5 (srcInner srcOuter : Q3) (f : ℚ) (h1 : 0 < f) (h2 : f ≤ 1) :
    (targetBoundsSquash srcInner srcOuter f).2.toReal
        - (targetBoundsSquash srcInner srcOuter f).1.toReal
        = (f : ℝ) * (srcOuter.toReal - srcInner.toReal)
    ∧ ((targetBoundsSquash srcInner srcOuter f).1.toReal
        + (targetBoundsSquash srcInner srcOuter f).2.toReal) / 2
        = (srcInner.toReal + srcOuter.toReal) / 2 := by
  simp only [targetBoundsSquash]
  constructor <;>
    simp only [Q3.toReal_sub, Q3.toReal_add, Q3.toReal_mul, Q3.toReal_div, Q3.toReal_ofQ] <;>
    push_cast <;>
    ring

/-- C5 witness at f = 1/2 and bounds 10, 20. -/
theorem spec_c5_witness :
    (targetBoundsSquash (Q3.ofQ 10) (Q3.ofQ 20) (1/2)).2.toReal
        - (targetBoundsSquash (Q3.ofQ 10) (Q3.ofQ 20) (1/2)).1.toReal
        = ((1/2 : ℚ) : ℝ) * ((Q3.ofQ 20).toReal - (Q3.ofQ 10).toReal)
    ∧ ((targetBoundsSquash (Q3.ofQ 10) (Q3.ofQ 20) (1/2)).1.toReal
        + (targetBoundsSquash (Q3.ofQ 10) (Q3.ofQ 20) (1/2)).2.toReal) / 2
        = ((Q3.ofQ 10).toReal + (Q3.ofQ 20).toReal) / 2 :=
  spec_c5 (Q3.ofQ 10) (Q3.ofQ 20) (1/2) (by norm_num) (by norm_num)

/-- C3: on an input in which no pixel's alpha exceeds the threshold 20, both
squash_hex_frame_v2 and smart_hex_crop return none: the empty-image guard
fires before any ring bound is computed, no output buffer is produced, and
the call terminates normally. -/
theorem spec_c3 (resample : Resampler) (f tf s : ℚ) (img : Img)
    (h : ∀ r, r < img.height → ∀ c, c < img.width → (img.pixel r c).a ≤ 20) :
    squash_hex_frame_v2 resample f img = none ∧ smart_hex_crop tf s img = none := by
  have h2 := maskedDistances_eq_nil
    (create_hex_distance_field_pointy img.width img.height) h
  have h3 := maskedDistances_eq_nil
    (create_hex_distance_field img.width img.height) h
  constructor
  · simp only [squash_hex_frame_v2, h2]
    rfl
  · simp only [smart_hex_crop, h3]
    rfl

/-- C3 witness: the all-transparent 4x4 image is skipped by both transforms. -/
theorem spec_c3_witness :
    squash_hex_frame_v2 resampleZero (1/2) imgEmpty = none
    ∧ smart_hex_crop (3/5) (3/2) imgEmpty = none :=
  spec_c3 resampleZero (1/2) (3/5) (3/2) imgEmpty
    (by intro r _ c _; simp [imgEmpty])

/-- C1 (amended): for every destination pixel inside the v2 target annulus
[tgt_inner - 2, tgt_outer + 2], the squash_hex_frame_v2 coordinate map equals
the claimed formula: center + offset * (d_src / d) with
d_src = src_inner + clamp((d - tgt_inner)/tgt_thickness, 0, 1) * src_thickness
and d replaced by the epsilon 0.001 when d == 0.  (squash_hex_frame's map
omits the clamp; see the counterexample.) -/
theorem spec_c1 (width height : ℕ)
    (srcInner srcThickness tgtInner tgtThickness tgtOuter : Q3) (row col : ℕ)
    (h1 : tgtInner.toReal - 2 ≤ (create_hex_distance_field_pointy width height row col).toReal)
    (h2 : (create_hex_distance_field_pointy width height row col).toReal ≤ tgtOuter.toReal + 2) :
    ((warpCoordV2 width height srcInner srcThickness tgtInner tgtThickness tgtOuter row col).1.toReal,
     (warpCoordV2 width height srcInner srcThickness tgtInner tgtThickness tgtOuter row col).2.toReal)
      = specWarpCoord width height srcInner.toReal srcThickness.toReal tgtInner.toReal
          tgtThickness.toReal (create_hex_distance_field_pointy width height row col).toReal
          row col := by
  have hb1 : Q3.ble (tgtInner - Q3.ofQ 2) (create_hex_distance_field_pointy width height row col)
      = true := by
    rw [Q3.ble_iff, Q3.toReal_sub, Q3.toReal_ofQ]
    push_cast
    linarith
  have hb2 : Q3.ble (create_hex_distance_field_pointy width height row col) (tgtOuter + Q3.ofQ 2)
      = true := by
    rw [Q3.ble_iff, Q3.toReal_add, Q3.toReal_ofQ]
    push_cast
    linarith
  have hcond : (Q3.ble (tgtInner - Q3.ofQ 2) (create_hex_distance_field_pointy width height row col)
      && Q3.ble (create_hex_distance_field_pointy width height row col) (tgtOuter + Q3.ofQ 2))
      = true := by
    rw [hb1, hb2]
    rfl
  by_cases hz : create_hex_distance_field_pointy width height row col = 0
  · have hzR : (create_hex_distance_field_pointy width height row col).toReal = 0 := by
      rw [hz, Q3.toReal_zero]
    simp only [warpCoordV2, specWarpCoord]
    rw [if_pos hcond, if_pos hz, if_pos hzR]
    simp only [Prod.mk.injEq]
    constructor <;>
    · simp only [Q3.toReal_add, Q3.toReal_mul, Q3.toReal_div, Q3.toReal_clip, Q3.toReal_sub,
        Q3.toReal_ofQ, Q3.toReal_zero, Q3.toReal_one]
      push_cast
      ring
  · have hzR : (create_hex_distance_field_pointy width height row col).toReal ≠ 0 :=
      Q3.toReal_ne_zero hz
    simp only [warpCoordV2, specWarpCoord]
    rw [if_pos hcond, if_neg hz, if_neg hzR]
    simp only [Prod.mk.injEq]
    constructor <;>
    · simp only [Q3.toReal_add, Q3.toReal_mul, Q3.toReal_div, Q3.toReal_clip, Q3.toReal_sub,
        Q3.toReal_ofQ, Q3.toReal_zero, Q3.toReal_one]
      push_cast
      ring

/-- C1 witness: a pixel of a 16x16 image at distance 6, inside the annulus
for bounds tgt = [5, 7], src_inner = 5, thicknesses 4 and 2. -/
theorem spec_c1_witness :
    (Q3.ofQ 5).toReal - 2 ≤ (create_hex_distance_field_pointy 16 16 8 2).toReal
    ∧ (create_hex_distance_field_pointy 16 16 8 2).toReal ≤ (Q3.ofQ 7).toReal + 2
    ∧ ((warpCoordV2 16 16 (Q3.ofQ 5) (Q3.ofQ 4) (Q3.ofQ 5) (Q3.ofQ 2) (Q3.ofQ 7) 8 2).1.toReal,
       (warpCoordV2 16 16 (Q3.ofQ 5) (Q3.ofQ 4) (Q3.ofQ 5) (Q3.ofQ 2) (Q3.ofQ 7) 8 2).2.toReal)
        = specWarpCoord 16 16 (Q3.ofQ 5).toReal (Q3.ofQ 4).toReal (Q3.ofQ 5).toReal
            (Q3.ofQ 2).toReal ((create_hex_distance_field_pointy 16 16 8 2).toReal) 8 2 := by
  have hd : (create_hex_distance_field_pointy 16 16 8 2).toReal = 6 := by
    rw [create_hex_distance_field_pointy_toReal]
    norm_num
  have hb1 : (Q3.ofQ 5).toReal - 2 ≤ (create_hex_distance_field_pointy 16 16 8 2).toReal := by
    rw [hd, Q3.toReal_ofQ]
    norm_num
  have hb2 : (create_hex_distance_field_pointy 16 16 8 2).toReal ≤ (Q3.ofQ 7).toReal + 2 := by
    rw [hd, Q3.toReal_ofQ]
    norm_num
  exact ⟨hb1, hb2,
    spec_c1 16 16 (Q3.ofQ 5) (Q3.ofQ 4) (Q3.ofQ 5) (Q3.ofQ 2) (Q3.ofQ 7) 8 2 hb1 hb2⟩

/-- C1 counterexample: at W = H = 8 the pixel (row 1, col 4) has distance 3,
inside squash_hex_frame's margin-1 annulus for target bounds [3.5, 5.5]
(thickness 2, source inner 5, source thickness 4); the v1 map leaves t
unclamped and yields map_y = 0, while the claimed clamped formula yields -1. -/
theorem spec_c1_counterexample :
    (Q3.ofQ (7/2)).toReal - 1 ≤ (create_hex_distance_field 8 8 1 4).toReal
    ∧ (create_hex_distance_field 8 8 1 4).toReal ≤ (Q3.ofQ (11/2)).toReal + 1
    ∧ (warpCoordV1 8 8 (Q3.ofQ 5) (Q3.ofQ 4) (Q3.ofQ (7/2)) (Q3.ofQ 2) (Q3.ofQ (11/2)) 1 4).1.toReal
        ≠ (specWarpCoord 8 8 (Q3.ofQ 5).toReal (Q3.ofQ 4).toReal (Q3.ofQ (7/2)).toReal
            (Q3.ofQ 2).toReal ((create_hex_distance_field 8 8 1 4).toReal) 1 4).1 := by
  have hd : create_hex_distance_field 8 8 1 4 = Q3.ofQ 3 := by
    apply Q3.toReal_inj.mp
    rw [create_hex_distance_field_toReal, Q3.toReal_ofQ]
    norm_num
  have hdR : (create_hex_distance_field 8 8 1 4).toReal = 3 := by
    rw [hd, Q3.toReal_ofQ]
    norm_num
  have hne : create_hex_distance_field 8 8 1 4 ≠ 0 := by
    rw [hd]
    intro hh
    have := congrArg Q3.a hh
    simp at this
  refine ⟨by rw [hdR, Q3.toReal_ofQ]; norm_num, by rw [hdR, Q3.toReal_ofQ]; norm_num, ?_⟩
  have hb1 : Q3.ble (Q3.ofQ (7/2) - Q3.ofQ 1) (create_hex_distance_field 8 8 1 4) = true := by
    rw [Q3.ble_iff, Q3.toReal_sub, Q3.toReal_ofQ, Q3.toReal_ofQ, hdR]
    norm_num
  have hb2 : Q3.ble (create_hex_distance_field 8 8 1 4) (Q3.ofQ (11/2) + Q3.ofQ 1) = true := by
    rw [Q3.ble_iff, Q3.toReal_add, Q3.toReal_ofQ, Q3.toReal_ofQ, hdR]
    norm_num
  have hcond : (Q3.ble (Q3.ofQ (7/2) - Q3.ofQ 1) (create_hex_distance_field 8 8 1 4)
      && Q3.ble (create_hex_distance_field 8 8 1 4) (Q3.ofQ (11/2) + Q3.ofQ 1)) = true := by
    rw [hb1, hb2]
    rfl
  have hL : (warpCoordV1 8 8 (Q3.ofQ 5) (Q3.ofQ 4) (Q3.ofQ (7/2)) (Q3.ofQ 2) (Q3.ofQ (11/2)) 1 4).1.toReal
      = 0 := by
    simp only [warpCoordV1]
    rw [if_pos hcond, if_neg hne]
    simp only [Q3.toReal_add, Q3.toReal_mul, Q3.toReal_div, Q3.toReal_sub, Q3.toReal_ofQ, hdR]
    push_cast
    norm_num
  have hR : (specWarpCoord 8 8 (Q3.ofQ 5).toReal (Q3.ofQ 4).toReal (Q3.ofQ (7/2)).toReal
      (Q3.ofQ 2).toReal ((create_hex_distance_field 8 8 1 4).toReal) 1 4).1 = -1 := by
    rw [hdR]
    simp only [specWarpCoord, Q3.toReal_ofQ]
    norm_num [max_def, min_def]
  rw [hL, hR]
  norm_num

lemma squashV2_imgA_isSome : (squash_hex_frame_v2 resampleZero (1/2) imgA).isSome = true := by
  decide

lemma squashV1_imgB_isSome : (squash_hex_frame resampleZero (1/2) imgB).isSome = true := by
  decide

/-- C6: in both squash transforms, every output pixel whose distance-field
value lies strictly outside [tgt_inner - softness, tgt_outer + softness]
(softness 1.5) has final alpha 0, because the geometric mask
clip((d - tgt_inner)/s, 0, 1) * clip((tgt_outer - d)/s, 0, 1) vanishes there
and the final alpha is the sampled alpha scaled by that mask. -/
theorem spec_c6 :
    (∀ (resample : Resampler) (f : ℚ) (img : Img) (o : Img),
        squash_hex_frame_v2 resample f img = some o →
        ∀ row col : ℕ,
          ((create_hex_distance_field_pointy img.width img.height row col).toReal
              < (targetBoundsSquash (srcBoundsV2 img).1 (srcBoundsV2 img).2 f).1.toReal - 3/2
            ∨ (targetBoundsSquash (srcBoundsV2 img).1 (srcBoundsV2 img).2 f).2.toReal + 3/2
              < (create_hex_distance_field_pointy img.width img.height row col).toReal) →
          (o.pixel row col).a = 0)
    ∧ (∀ (resample : Resampler) (f : ℚ) (img : Img) (o : Img),
        squash_hex_frame resample f img = some o →
        ∀ row col : ℕ,
          ((create_hex_distance_field img.width img.height row col).toReal
              < (targetBoundsSquash (srcBoundsV1 img).1 (srcBoundsV1 img).2 f).1.toReal - 3/2
            ∨ (targetBoundsSquash (srcBoundsV1 img).1 (srcBoundsV1 img).2 f).2.toReal + 3/2
              < (create_hex_distance_field img.width img.height row col).toReal) →
          (o.pixel row col).a = 0) := by
  constructor
  · intro resample f img o ho row col hband
    simp only [squash_hex_frame_v2] at ho
    by_cases hemp : (maskedDistances img 20
        (create_hex_distance_field_pointy img.width img.height)).isEmpty = true
    · rw [if_pos hemp] at ho
      cases ho
    · rw [if_neg hemp] at ho
      obtain rfl := Option.some.inj ho
      exact finalAlphaV2_eq_zero _ (geoAlpha_eq_zero hband)
  · intro resample f img o ho row col hband
    simp only [squash_hex_frame] at ho
    by_cases hemp : (maskedDistances img 20
        (create_hex_distance_field img.width img.height)).isEmpty = true
    · rw [if_pos hemp] at ho
      cases ho
    · rw [if_neg hemp] at ho
      obtain rfl := Option.some.inj ho
      exact finalAlphaV1_eq_zero _ (geoAlpha_eq_zero hband)

/-- C6 witness: for the concrete one-pixel images the center pixel (distance
0) is outside the softened band around distance 2, and its output alpha is 0
in both transforms. -/
theorem spec_c6_witness :
    (((squash_hex_frame_v2 resampleZero (1/2) imgA).get squashV2_imgA_isSome).pixel 2 2).a = 0
    ∧ (((squash_hex_frame resampleZero (1/2) imgB).get squashV1_imgB_isSome).pixel 2 2).a = 0 := by
  constructor
  · apply spec_c6.1 resampleZero (1/2) imgA _ (Option.some_get squashV2_imgA_isSome).symm 2 2
    left
    simp only [srcBoundsV2_imgA, targetBounds_imgVal]
    rw [show imgA.width = 4 from rfl, show imgA.height = 4 from rfl,
      create_hex_distance_field_pointy_toReal, Q3.toReal_ofQ]
    norm_num
  · apply spec_c6.2 resampleZero (1/2) imgB _ (Option.some_get squashV1_imgB_isSome).symm 2 2
    left
    simp only [srcBoundsV1_imgB, targetBounds_imgVal]
    rw [show imgB.width = 4 from rfl, show imgB.height = 4 from rfl,
      create_hex_distance_field_toReal, Q3.toReal_ofQ]
    norm_num

/-- C7: with thickness factor 1.0 the symmetric policy returns target bounds
equal to the source bounds, and on every pixel whose distance lies in
[src_inner, src_outer] the v2 coordinate map is the identity. -/
theorem spec_c7 (srcInner srcOuter : Q3) (h : srcInner.toReal < srcOuter.toReal) :
    targetBoundsSquash srcInner srcOuter 1 = (srcInner, srcOuter)
    ∧ ∀ width height row col : ℕ,
        srcInner.toReal ≤ (create_hex_distance_field_pointy width height row col).toReal →
        (create_hex_distance_field_pointy width height row col).toReal ≤ srcOuter.toReal →
        warpCoordV2 width height srcInner (srcOuter - srcInner)
            (targetBoundsSquash srcInner srcOuter 1).1
            ((srcOuter - srcInner) * Q3.ofQ 1)
            (targetBoundsSquash srcInner srcOuter 1).2 row col
          = (Q3.ofQ (row : ℚ), Q3.ofQ (col : ℚ)) := by
  have htb : targetBoundsSquash srcInner srcOuter 1 = (srcInner, srcOuter) := by
    simp only [targetBoundsSquash, Prod.mk.injEq]
    constructor <;> apply Q3.toReal_inj.mp <;>
      simp only [Q3.toReal_sub, Q3.toReal_add, Q3.toReal_mul, Q3.toReal_div, Q3.toReal_ofQ] <;>
      push_cast <;> ring
  have hone : (srcOuter - srcInner) * Q3.ofQ 1 = srcOuter - srcInner :=
    Q3.ext (by simp) (by simp)
  refine ⟨htb, ?_⟩
  intro width height row col hd1 hd2
  rw [htb, hone]
  have hb1 : Q3.ble (srcInner - Q3.ofQ 2) (create_hex_distance_field_pointy width height row col)
      = true := by
    rw [Q3.ble_iff, Q3.toReal_sub, Q3.toReal_ofQ]
    push_cast
    linarith
  have hb2 : Q3.ble (create_hex_distance_field_pointy width height row col) (srcOuter + Q3.ofQ 2)
      = true := by
    rw [Q3.ble_iff, Q3.toReal_add, Q3.toReal_ofQ]
    push_cast
    linarith
  have hcond : (Q3.ble (srcInner - Q3.ofQ 2) (create_hex_distance_field_pointy width height row col)
      && Q3.ble (create_hex_distance_field_pointy width height row col) (srcOuter + Q3.ofQ 2))
      = true := by
    rw [hb1, hb2]
    rfl
  simp only [warpCoordV2]
  rw [if_pos hcond]
  by_cases hz : create_hex_distance_field_pointy width height row col = 0
  · rw [if_pos hz]
    have hzR : (create_hex_distance_field_pointy width height row col).toReal = 0 := by
      rw [hz, Q3.toReal_zero]
    obtain ⟨hy, hx⟩ := hexPointy_zero_coords hzR
    have hy2 : (row : ℚ) = (height : ℚ)/2 := by linarith
    have hx2 : (col : ℚ) = (width : ℚ)/2 := by linarith
    have hy0 : Q3.ofQ ((row : ℚ) - (height : ℚ)/2) = 0 := by rw [hy]; rfl
    have hx0 : Q3.ofQ ((col : ℚ) - (width : ℚ)/2) = 0 := by rw [hx]; rfl
    rw [Prod.mk.injEq]
    constructor
    · rw [hy0, Q3.q3_zero_mul, Q3.q3_add_zero, hy2]
    · rw [hx0, Q3.q3_zero_mul, Q3.q3_add_zero, hx2]
  · rw [if_neg hz]
    have hzR : (create_hex_distance_field_pointy width height row col).toReal ≠ 0 :=
      Q3.toReal_ne_zero hz
    have hth : srcOuter.toReal - srcInner.toReal ≠ 0 := (sub_pos.mpr h).ne'
    have ht0 : 0 ≤ ((create_hex_distance_field_pointy width height row col - srcInner)
        / (srcOuter - srcInner)).toReal := by
      rw [Q3.toReal_div, Q3.toReal_sub, Q3.toReal_sub]
      exact div_nonneg (by linarith) (by linarith)
    have ht1 : ((create_hex_distance_field_pointy width height row col - srcInner)
        / (srcOuter - srcInner)).toReal ≤ 1 := by
      rw [Q3.toReal_div, Q3.toReal_sub, Q3.toReal_sub]
      rw [div_le_one (by linarith)]
      linarith
    rw [Q3.clip01_eq_self ht0 ht1]
    rw [Prod.mk.injEq]
    constructor <;> apply Q3.toReal_inj.mp <;>
      simp only [Q3.toReal_add, Q3.toReal_mul, Q3.toReal_div, Q3.toReal_sub, Q3.toReal_ofQ] <;>
      push_cast <;>
      field_simp

/-- C7 witness: source bounds [5, 10] and the pixel (8, 2) of a 16x16 image
at distance 6. -/
theorem spec_c7_witness :
    targetBoundsSquash (Q3.ofQ 5) (Q3.ofQ 10) 1 = (Q3.ofQ 5, Q3.ofQ 10)
    ∧ warpCoordV2 16 16 (Q3.ofQ 5) (Q3.ofQ 10 - Q3.ofQ 5)
        (targetBoundsSquash (Q3.ofQ 5) (Q3.ofQ 10) 1).1
        ((Q3.ofQ 10 - Q3.ofQ 5) * Q3.ofQ 1)
        (targetBoundsSquash (Q3.ofQ 5) (Q3.ofQ 10) 1).2 8 2
      = (Q3.ofQ ((8 : ℕ) : ℚ), Q3.ofQ ((2 : ℕ) : ℚ)) := by
  have hlt : (Q3.ofQ 5).toReal < (Q3.ofQ 10).toReal := by
    rw [Q3.toReal_ofQ, Q3.toReal_ofQ]
    norm_num
  have hd : (create_hex_distance_field_pointy 16 16 8 2).toReal = 6 := by
    rw [create_hex_distance_field_pointy_toReal]
    norm_num
  refine ⟨(spec_c7 (Q3.ofQ 5) (Q3.ofQ 10) hlt).1, ?_⟩
  apply (spec_c7 (Q3.ofQ 5) (Q3.ofQ 10) hlt).2 16 16 8 2
  · rw [hd, Q3.toReal_ofQ]
    norm_num
  · rw [hd, Q3.toReal_ofQ]
    norm_num

/-- C4 (code bug): neither squash script checks for a degenerate source
thickness.  On inputs with a single opaque pixel both percentile bounds
coincide (source thickness 0 ≤ 0), yet both transforms still produce an
output buffer (dividing by the zero target thickness) instead of skipping
the image as the spec requires. -/
theorem spec_c4 :
    (squash_hex_frame_v2 resampleZero (1/2) imgA).isSome = true
    ∧ (srcBoundsV2 imgA).2 - (srcBoundsV2 imgA).1 = 0
    ∧ (squash_hex_frame resampleZero (1/2) imgB).isSome = true
    ∧ (srcBoundsV1 imgB).2 - (srcBoundsV1 imgB).1 = 0 := by
  refine ⟨squashV2_imgA_isSome, ?_, squashV1_imgB_isSome, ?_⟩
  · rw [srcBoundsV2_imgA]
    exact Q3.q3_sub_self _
  · rw [srcBoundsV1_imgB]
    exact Q3.q3_sub_self _

/-- C8: thin_frame keeps every RGB value and every alpha except at pixels
that were opaque (alpha > 128) but removed by the iterated binary erosion,
where alpha becomes 0; hence output alpha is pointwise at most input alpha. -/
theorem spec_c8 (img : Img) (iterations row col : ℕ) :
    ((thin_frame iterations img).pixel row col).r = (img.pixel row col).r
    ∧ ((thin_frame iterations img).pixel row col).g = (img.pixel row col).g
    ∧ ((thin_frame iterations img).pixel row col).b = (img.pixel row col).b
    ∧ ((thin_frame iterations img).pixel row col).a
        = (if (decide (128 < (img.pixel row col).a)
              && !((binary_erosion img.width img.height)^[iterations]
                    (fun r c => decide (128 < (img.pixel r c).a)) row col))
           then 0 else (img.pixel row col).a)
    ∧ ((thin_frame iterations img).pixel row col).a ≤ (img.pixel row col).a := by
  simp only [thin_frame]
  cases hb : (decide (128 < (img.pixel row col).a)
      && !((binary_erosion img.width img.height)^[iterations]
            (fun r c => decide (128 < (img.pixel r c).a)) row col)) with
  | false => simp [hb]
  | true => simp [hb]

/-- C9: when at least one pixel is above the alpha threshold, smart_hex_crop
returns an image whose alpha at every pixel is min(original alpha, geometric
ring mask scaled to 0..255) - hence pointwise at most the input alpha - and
whose RGB channels are untouched. -/
theorem spec_c9 (thickness_factor smoothing : ℚ) (img : Img)
    (h : (maskedDistances img 20
          (create_hex_distance_field img.width img.height)).isEmpty = false) :
    ∀ row col : ℕ,
      (((smart_hex_crop thickness_factor smoothing img).getD img).pixel row col).a
          = min ((img.pixel row col).a) (ringMask255 img thickness_factor smoothing row col)
      ∧ (((smart_hex_crop thickness_factor smoothing img).getD img).pixel row col).a
          ≤ (img.pixel row col).a
      ∧ (((smart_hex_crop thickness_factor smoothing img).getD img).pixel row col).r
          = (img.pixel row col).r
      ∧ (((smart_hex_crop thickness_factor smoothing img).getD img).pixel row col).g
          = (img.pixel row col).g
      ∧ (((smart_hex_crop thickness_factor smoothing img).getD img).pixel row col).b
          = (img.pixel row col).b := by
  intro row col
  have hs : smart_hex_crop thickness_factor smoothing img
      = some { img with pixel := fun r c =>
          { img.pixel r c with
            a := min ((img.pixel r c).a) (ringMask255 img thickness_factor smoothing r c) } } := by
    simp only [smart_hex_crop]
    rw [if_neg (by simp [h])]
  rw [hs]
  exact ⟨rfl, min_le_left _ _, rfl, rfl, rfl⟩

/-- C9 witness at the one-opaque-pixel image. -/
theorem spec_c9_witness :
    (((smart_hex_crop (3/5) (3/2) imgA).getD imgA).pixel 0 0).a
        = min ((imgA.pixel 0 0).a) (ringMask255 imgA (3/5) (3/2) 0 0) :=
  ((spec_c9 (3/5) (3/2) imgA (by decide)) 0 0).1

/-- C10: every icon written by extract_horizontal_uniform has the same
dimensions, namely (max cropped width + 2 * padding) x (max cropped height
+ 2 * padding), and is the corresponding crop pasted centered (to within
the one pixel lost to integer division) on an otherwise fully transparent
canvas. -/
theorem spec_c10 (img : Img) (numIcons padding i : ℕ)
    (h : i < (extract_horizontal_uniform img numIcons padding).length) :
    let fW := (uniformSize img numIcons padding).1
    let fH := (uniformSize img numIcons padding).2
    let o := (extract_horizontal_uniform img numIcons padding).getD i default
    let ci := (uniformCrops img numIcons).getD i default
    o.width = (uniformCrops img numIcons).foldl (fun m c => max m c.width) 0 + padding * 2
    ∧ o.height = (uniformCrops img numIcons).foldl (fun m c => max m c.height) 0 + padding * 2
    ∧ o = placeCentered fW fH ci
    ∧ ci.width ≤ fW
    ∧ ci.height ≤ fH
    ∧ 2 * ((fW - ci.width) / 2) ≤ fW - ci.width
    ∧ fW - ci.width < 2 * ((fW - ci.width) / 2) + 2
    ∧ 2 * ((fH - ci.height) / 2) ≤ fH - ci.height
    ∧ fH - ci.height < 2 * ((fH - ci.height) / 2) + 2
    ∧ (∀ r c : ℕ,
        (r < (fH - ci.height) / 2 ∨ (fH - ci.height) / 2 + ci.height ≤ r
          ∨ c < (fW - ci.width) / 2 ∨ (fW - ci.width) / 2 + ci.width ≤ c) →
        o.pixel r c = ⟨0, 0, 0, 0⟩)
    ∧ (∀ r c : ℕ, r < ci.height → c < ci.width →
        o.pixel ((fH - ci.height) / 2 + r) ((fW - ci.width) / 2 + c) = ci.pixel r c) := by
  intro fW fH o ci
  have hlen : i < (uniformCrops img numIcons).length := by
    simpa [extract_horizontal_uniform, List.length_map] using h
  have ho : o = placeCentered fW fH ci := by
    show (extract_horizontal_uniform img numIcons padding).getD i default = _
    unfold extract_horizontal_uniform
    exact getD_map_lt _ _ i hlen default
  have hciMem : ci ∈ uniformCrops img numIcons := by
    show (uniformCrops img numIcons).getD i default ∈ _
    rw [List.getD_eq_getElem?_getD, List.getElem?_eq_getElem hlen]
    exact List.getElem_mem hlen
  have hwle : ci.width ≤ fW := by
    show ci.width ≤ (uniformCrops img numIcons).foldl (fun m c => max m c.width) 0 + padding * 2
    exact le_trans (mem_le_foldl_max (fun c => c.width) (uniformCrops img numIcons) 0 ci hciMem)
      (Nat.le_add_right _ _)
  have hhle : ci.height ≤ fH := by
    show ci.height ≤ (uniformCrops img numIcons).foldl (fun m c => max m c.height) 0 + padding * 2
    exact le_trans (mem_le_foldl_max (fun c => c.height) (uniformCrops img numIcons) 0 ci hciMem)
      (Nat.le_add_right _ _)
  refine ⟨by rw [ho]; rfl, by rw [ho]; rfl, ho, hwle, hhle,
    by omega, by omega, by omega, by omega, ?_, ?_⟩
  · intro r c hcase
    rw [ho]
    simp only [placeCentered]
    rw [if_neg (by omega)]
  · intro r c hr hc
    rw [ho]
    simp only [placeCentered]
    rw [if_pos (by omega)]
    rw [Nat.add_sub_cancel_left, Nat.add_sub_cancel_left]

/-- C10 witness: the 4x2 strip with one icon and padding 2 produces an icon
of the unified width (max crop width + 2 * padding). -/
theorem spec_c10_witness :
    ((extract_horizontal_uniform imgStrip 1 2).getD 0 default).width
      = (uniformCrops imgStrip 1).foldl (fun m c => max m c.width) 0 + 2 * 2 := by
  have h0 : 0 < (extract_horizontal_uniform imgStrip 1 2).length := by decide
  have h := spec_c10 imgStrip 1 2 0 h0
  exact h.1
